import Mathlib

/-!
Verification of the generate → verify → refine loop and the JobState/Manifest
model of the sqm-project-images-generator repository.

The definitions below are a shallow embedding of `src/agent/generate_project.py`,
`src/agent/regenerate_single.py` and `src/agent/prompts/shot_types.py`.
External capabilities (the image model and the vision judge) are modelled as
oracles: image bytes are opaque `Nat` identifiers, judge answers are the parsed
JSON records the code reads.  Wall-clock timestamps inside records are either
omitted or passed in as explicit parameters, and file I/O is modelled as pure
state (the contents of `status.json` and `manifest.json`).
-/

namespace SQM

/-- Parsed JSON returned by `verify_image` / `verify_interior_image`
(`total_score`, `breakdown`, `issues`, `suggestions`).  The breakdown dict is
modelled as an association list in insertion order. -/
structure JudgeResult where
  total_score : Nat
  breakdown : List (String × Nat)
  issues : List String
  suggestions : List String
deriving Repr, DecidableEq

/-- One synthesis attempt as the loop sees it: `none` when `generate_image`
returned no image (the `if not image_data: continue` path), otherwise the
image bytes (opaque id) together with the judge's verdict on it. -/
abbrev AttemptOutcome := Option (Nat × JudgeResult)

/-- Which rubric a candidate is judged under: `verify_image` (exterior) or
`verify_interior_image` (interior). -/
inductive Profile where
  | exterior : Profile
  | interior : Profile
deriving Repr, DecidableEq

/-- The five 0-20 criteria of the exterior rubric, from the
`verify_image` output format (generate_project.py lines 489-495). -/
def exteriorCriteria : List String :=
  ["building_shape", "architectural_style", "materials_facade",
   "windows_openings", "proportions"]

/-- The five 0-20 criteria of the interior rubric, from the
`verify_interior_image` output format (generate_project.py lines 617-623). -/
def interiorCriteria : List String :=
  ["interior_style_consistency", "material_finish_quality",
   "lighting_appropriateness", "spatial_quality", "project_context_match"]

/-- Criteria of each rubric profile. -/
def rubricCriteria : Profile → List String
  | Profile.exterior => exteriorCriteria
  | Profile.interior => interiorCriteria

/-- `INTERIOR_SHOT_IDS` (generate_project.py lines 527-537; the same list is
duplicated in regenerate_single.py lines 46-56). -/
def INTERIOR_SHOT_IDS : List String :=
  ["interior_living", "interior_kitchen", "interior_master",
   "interior_bathroom", "spatial_staircase", "spatial_window",
   "spatial_volume", "lifestyle_morning", "lifestyle_evening"]

/-- `is_interior_shot` (generate_project.py lines 540-542). -/
def is_interior_shot (shot_id : String) : Bool :=
  INTERIOR_SHOT_IDS.contains shot_id

/-- The rubric profile a shot id is judged under, as dispatched at
generate_project.py lines 949-955. -/
def profileFor (shot_id : String) : Profile :=
  if is_interior_shot shot_id then Profile.interior else Profile.exterior

/-- `get_aspect_ratio_for_shot` (generate_project.py lines 331-358).  The
`standard_shots` list in the source is dead data: every id not in the first
three lists falls through to "4:3". -/
def get_aspect_ratio_for_shot (shot_id : String) : String :=
  let landscape_shots : List String :=
    ["hero_facade", "hero_twilight", "hero_elevated",
     "context_street", "interior_living", "interior_kitchen",
     "interior_master", "lifestyle_morning", "lifestyle_evening",
     "multi_unit_variety", "multi_shared_spaces"]
  let square_shots : List String := ["feature_material"]
  let portrait_shots : List String := ["spatial_staircase", "spatial_volume"]
  if landscape_shots.contains shot_id then "16:9"
  else if square_shots.contains shot_id then "1:1"
  else if portrait_shots.contains shot_id then "3:4"
  else "4:3"

/-- One entry of `SHOT_TYPES` (prompts/shot_types.py).  The `prompt` payload
is opaque instruction text consumed only by the external synthesizer, so it is
not carried here. -/
structure Shot where
  id : String
  category : String
  name : String
  order : Nat
  is_hero : Bool
deriving Repr, DecidableEq

/-- `SHOT_TYPES` (prompts/shot_types.py): the 18 base shots, in file order
(which coincides with `order` 1..18). -/
def SHOT_TYPES : List Shot :=
  [⟨"hero_facade", "hero_shots", "Primary Facade", 1, true⟩,
   ⟨"hero_twilight", "hero_shots", "Twilight Hero", 2, true⟩,
   ⟨"hero_elevated", "hero_shots", "Elevated 3/4 Angle", 3, true⟩,
   ⟨"context_street", "site_context", "Street Scene", 4, false⟩,
   ⟨"context_aerial", "site_context", "Aerial/Drone View", 5, false⟩,
   ⟨"context_approach", "site_context", "Pedestrian Approach", 6, false⟩,
   ⟨"feature_entry", "architectural_features", "Entry Threshold", 7, false⟩,
   ⟨"feature_material", "architectural_features", "Material Detail", 8, false⟩,
   ⟨"feature_signature", "architectural_features", "Signature Element", 9, false⟩,
   ⟨"interior_living", "interior_spaces", "Living to Outdoor", 10, false⟩,
   ⟨"interior_kitchen", "interior_spaces", "Kitchen", 11, false⟩,
   ⟨"interior_master", "interior_spaces", "Master Suite", 12, false⟩,
   ⟨"interior_bathroom", "interior_spaces", "Bathroom", 13, false⟩,
   ⟨"spatial_staircase", "spatial_experience", "Staircase Void", 14, false⟩,
   ⟨"spatial_window", "spatial_experience", "Window Moment", 15, false⟩,
   ⟨"spatial_volume", "spatial_experience", "Volume Shot", 16, false⟩,
   ⟨"lifestyle_morning", "lifestyle_atmosphere", "Morning Light", 17, false⟩,
   ⟨"lifestyle_evening", "lifestyle_atmosphere", "Evening Entertaining", 18, false⟩]

/-- `MULTI_UNIT_EXTRA_SHOTS` (prompts/shot_types.py lines 629-701). -/
def MULTI_UNIT_EXTRA_SHOTS : List Shot :=
  [⟨"multi_unit_variety", "architectural_features", "Unit Variety", 19, false⟩,
   ⟨"multi_shared_spaces", "lifestyle_atmosphere", "Shared Spaces", 20, false⟩]

/-- `get_all_shots_ordered`: `sorted(SHOT_TYPES, key=lambda x: x["order"])`. -/
def get_all_shots_ordered : List Shot :=
  SHOT_TYPES.mergeSort (fun a b => decide (a.order ≤ b.order))

/-- `get_shots_for_project_type` (prompts/shot_types.py lines 702-723). -/
def get_shots_for_project_type (project_type : String) (num_units : Nat) : List Shot :=
  let base_shots := get_all_shots_ordered
  if project_type = "apartments" ∨ (project_type = "townhouses" ∧ 3 ≤ num_units) then
    base_shots ++ MULTI_UNIT_EXTRA_SHOTS.mergeSort (fun a b => decide (a.order ≤ b.order))
  else
    base_shots

/-- `get_shot_by_id` (prompts/shot_types.py lines 594-599): linear search over
the 18 base shots only (the multi-unit extras are not searched). -/
def get_shot_by_id (shot_id : String) : Option Shot :=
  SHOT_TYPES.find? (fun s => s.id == shot_id)

/-- The `<fix .../>` line emitted by `build_fixing_prompt` for one
under-performing criterion (generate_project.py line 661). -/
def fix_line (criterion : String) (score : Nat) : String :=
  "<fix criterion=\x27" ++ criterion ++ "\x27 score=\x27" ++ toString score ++
    "/20\x27>Improve this aspect significantly</fix>"

/-- `build_fixing_prompt` (generate_project.py lines 654-670), embedded with
the same three accumulation loops over the latest verification result. -/
def build_fixing_prompt (verification_result : JudgeResult) : String :=
  let lines : List String := ["<fixes_required>"]
  let lines := verification_result.breakdown.foldl
    (fun acc c => if c.2 < 16 then acc ++ [fix_line c.1 c.2] else acc) lines
  let lines := verification_result.issues.foldl
    (fun acc issue => acc ++ ["<issue>" ++ issue ++ "</issue>"]) lines
  let lines := verification_result.suggestions.foldl
    (fun acc suggestion => acc ++ ["<suggestion>" ++ suggestion ++ "</suggestion>"]) lines
  let lines := lines ++ ["</fixes_required>"]
  String.intercalate "\n" lines

/-- The mutable locals of the per-shot retry loop
(generate_project.py lines 909-914). -/
structure LoopState where
  attempts : Nat
  best_score : Nat
  best_image_data : Option Nat
  best_breakdown : Option (List (String × Nat))
  fixing_prompt : Option String
deriving Repr, DecidableEq

/-- `attempts = 0; best_score = 0; best_image_data = None; best_breakdown =
None; fixing_prompt = None`. -/
def initLoopState : LoopState :=
  { attempts := 0, best_score := 0, best_image_data := none,
    best_breakdown := none, fixing_prompt := none }

/-- Lines 917 and 959-962 of generate_project.py: count the attempt and
replace the retained best candidate when the new score strictly beats it. -/
def recordAttempt (s : LoopState) (image_data : Nat) (verification : JudgeResult) : LoopState :=
  if s.best_score < verification.total_score then
    { s with attempts := s.attempts + 1,
             best_score := verification.total_score,
             best_image_data := some image_data,
             best_breakdown := some verification.breakdown }
  else
    { s with attempts := s.attempts + 1 }

/-- The `while attempts < MAX_REGEN_ATTEMPTS` loop of generate_project.py
lines 916-972 (duplicated verbatim in regenerate_single.py lines 459-509),
run over the list of per-attempt oracle answers (one list element per loop
iteration, so a list of length `MAX_REGEN_ATTEMPTS`).  A `none` element is a
failed synthesis (`continue`); a judged element updates the best candidate,
then either passes (`score > VERIFICATION_THRESHOLD`: break) or rebuilds
`fixing_prompt` from this verification alone. -/
def runLoopList (threshold : Nat) : LoopState → List AttemptOutcome → LoopState
  | s, [] => s
  | s, none :: rest =>
      runLoopList threshold { s with attempts := s.attempts + 1 } rest
  | s, some (image_data, verification) :: rest =>
      let s1 := recordAttempt s image_data verification
      if threshold < verification.total_score then s1
      else runLoopList threshold
        { s1 with fixing_prompt := some (build_fixing_prompt verification) } rest

/-- The whole refinement loop for one shot, from the initial locals. -/
def runRefinementLoop (threshold : Nat) (outcomes : List AttemptOutcome) : LoopState :=
  runLoopList threshold initLoopState outcomes

/-- The two external capabilities, per shot: `synth k` is what
`generate_image` returns on the k-th attempt (1-based; `none` = no image) and
`judge p k` is the parsed verdict the chosen verifier returns on the k-th
attempt's candidate under rubric profile `p`. -/
structure ShotEnv where
  synth : Nat → Option Nat
  judge : Profile → Nat → JudgeResult

/-- The per-attempt oracle answers the loop consumes for one shot: attempt
k+1 either fails synthesis, or its candidate is judged under `profile` — the
single profile the code selects for the shot before dispatching
(generate_project.py lines 949-955). -/
def envOutcomes (env : ShotEnv) (profile : Profile) (maxAttempts : Nat) :
    List AttemptOutcome :=
  (List.range maxAttempts).map (fun k =>
    match env.synth (k + 1) with
    | none => none
    | some image_data => some (image_data, env.judge profile (k + 1)))

/-- One record of `manifest["images"]`.  `id` is `none` when the dict has no
"id" key (as for the entry freshly built by regenerate_single.py, before
`update_manifest` copies the old id in).  `scoreBreakdown` is `none` for hero
entries, which carry no such key.  The `created_at` / `regenerated_at`
wall-clock strings are omitted. -/
structure ImageEntry where
  id : Option String
  filename : String
  url : String
  variationType : String
  category : String
  name : String
  isHero : Bool
  consistencyScore : Nat
  attempts : Nat
  lowConfidence : Bool
  scoreBreakdown : Option (List (String × Nat))
  aspectRatio : String
deriving Repr, DecidableEq

/-- The contents of `status.json` as a partial record: a key absent from the
file is `none`.  The free-form keys (`prompt`, `model`, `updated_at`) that no
claim touches are omitted. -/
structure Status where
  status : Option String
  progress : Option Nat
  currentImage : Option Nat
  totalImages : Option Nat
  currentVariation : Option String
  message : Option String
  images : Option (List ImageEntry)
deriving Repr, DecidableEq

/-- The empty status document (`existing = {}` when `status.json` does not
exist yet). -/
def emptyStatus : Status :=
  { status := none, progress := none, currentImage := none, totalImages := none,
    currentVariation := none, message := none, images := none }

/-- Dict merge for one key: a key present in the update overwrites, an absent
key preserves the existing value (`existing.update(status_data)`). -/
def mergeField {α : Type} : Option α → Option α → Option α
  | old, none => old
  | _, some x => some x

/-- `existing.update(status_data)` over the whole status record. -/
def Status.merge (old new : Status) : Status :=
  { status := mergeField old.status new.status,
    progress := mergeField old.progress new.progress,
    currentImage := mergeField old.currentImage new.currentImage,
    totalImages := mergeField old.totalImages new.totalImages,
    currentVariation := mergeField old.currentVariation new.currentVariation,
    message := mergeField old.message new.message,
    images := mergeField old.images new.images }

/-- The driver's durable state: the current `status.json` document, the full
sequence of `status.json` contents ever written (in write order), the
`manifest["images"]` list, and the `completed` counter of the main loop. -/
structure DriverState where
  status : Status
  trace : List Status
  images : List ImageEntry
  completed : Nat
deriving Repr, DecidableEq

/-- `update_status` (generate_project.py lines 72-86): merge the partial
record into the current document and persist it. -/
def update_status (ds : DriverState) (status_data : Status) : DriverState :=
  let st := ds.status.merge status_data
  { ds with status := st, trace := ds.trace ++ [st] }

/-- `save_image_to_manifest` (generate_project.py lines 89-116): append the
entry to `manifest["images"]` and rewrite `status.json` with its `images` key
mirroring the manifest (no other key changes). -/
def save_image_to_manifest (ds : DriverState) (image_data : ImageEntry) : DriverState :=
  let imgs := ds.images ++ [image_data]
  let st := { ds.status with images := some imgs }
  { ds with images := imgs, status := st, trace := ds.trace ++ [st] }

/-- How many of the loop's iterations reach the judge (and hence emit the
`"verifying"` status update of generate_project.py lines 944-947): an
iteration with an image is judged; it stops the loop when its score strictly
exceeds the threshold. -/
def judgedCount (threshold : Nat) : List AttemptOutcome → Nat
  | [] => 0
  | none :: rest => judgedCount threshold rest
  | some (_, verification) :: rest =>
      (if threshold < verification.total_score then 0 else judgedCount threshold rest) + 1

/-- The post-loop store step for one non-hero shot
(generate_project.py lines 974-1006): if a best candidate was retained, build
the manifest entry from it (flagging low confidence when the best score does
not exceed the threshold); otherwise the shot is skipped and yields nothing. -/
def processShot (threshold maxAttempts : Nat) (job_id timestamp : String)
    (completed : Nat) (shot : Shot) (env : ShotEnv) : Option ImageEntry :=
  let profile := profileFor shot.id
  let st := runRefinementLoop threshold (envOutcomes env profile maxAttempts)
  match st.best_image_data with
  | none => none
  | some _ =>
      let filename := shot.id ++ "_" ++ timestamp ++ ".png"
      some { id := some (job_id ++ "_" ++ toString (completed + 1)),
             filename := filename,
             url := "/api/images/" ++ job_id ++ "/" ++ filename,
             variationType := shot.id,
             category := shot.category,
             name := shot.name,
             isHero := false,
             consistencyScore := st.best_score,
             attempts := st.attempts,
             lowConfidence := decide (st.best_score ≤ threshold),
             scoreBreakdown := st.best_breakdown,
             aspectRatio := get_aspect_ratio_for_shot shot.id }

/-- A status update carrying only a new `status` and `message`
(the per-attempt `"verifying"` write). -/
def verifyingUpdate (shot_name : String) : Status :=
  { status := some "verifying", progress := none, currentImage := none,
    totalImages := none, currentVariation := none,
    message := some ("Verifying " ++ shot_name ++ "..."), images := none }

/-- Emit `n` consecutive `"verifying"` status writes. -/
def emitVerifying (shot_name : String) : DriverState → Nat → DriverState
  | ds, 0 => ds
  | ds, n + 1 => emitVerifying shot_name (update_status ds (verifyingUpdate shot_name)) n

/-- The `for shot in shots_list` loop of generate_project.py lines 888-1006:
skip the hero entry, write the `"generating"` progress update, run the
refinement loop (whose judged iterations each write a `"verifying"` update),
and store the best candidate in the manifest when one exists.
`int((completed / total_shots) * 100)` is embedded as Nat floor division
`completed * 100 / total`; the Python float detour truncates to the same
monotone quantity. -/
def processShots (threshold maxAttempts : Nat) (job_id timestamp : String)
    (envs : String → ShotEnv) (total : Nat) :
    DriverState → List Shot → DriverState
  | ds, [] => ds
  | ds, shot :: rest =>
      if shot.id = "hero_facade" then
        processShots threshold maxAttempts job_id timestamp envs total ds rest
      else
        let ds := update_status ds
          { status := some "generating",
            progress := some (ds.completed * 100 / total),
            currentImage := some (ds.completed + 1),
            totalImages := some total,
            currentVariation := some shot.id,
            message := some ("Generating " ++ shot.name ++ "..."),
            images := none }
        let env := envs shot.id
        let outcomes := envOutcomes env (profileFor shot.id) maxAttempts
        let ds := emitVerifying shot.name ds (judgedCount threshold outcomes)
        match processShot threshold maxAttempts job_id timestamp ds.completed shot env with
        | none =>
            processShots threshold maxAttempts job_id timestamp envs total ds rest
        | some image_entry =>
            let ds := save_image_to_manifest ds image_entry
            processShots threshold maxAttempts job_id timestamp envs total
              { ds with completed := ds.completed + 1 } rest

/-- The hero manifest entry (generate_project.py lines 803-816 / 862-875):
fixed score 100, one attempt, never low confidence, no score breakdown. -/
def heroEntry (job_id hero_filename : String) : ImageEntry :=
  { id := some (job_id ++ "_1"),
    filename := hero_filename,
    url := "/api/images/" ++ job_id ++ "/" ++ hero_filename,
    variationType := "hero_facade",
    category := "hero_shots",
    name := "Primary Facade",
    isHero := true,
    consistencyScore := 100,
    attempts := 1,
    lowConfidence := false,
    scoreBreakdown := none,
    aspectRatio := get_aspect_ratio_for_shot "hero_facade" }

/-- `main` of generate_project.py (lines 673-1015), from the first status
write to the terminal one.  `fromHero` is true when `--from-hero` names an
existing file; `heroImage` is what `generate_image` returns for the hero
prompt in the generate-hero branch; `hero_filename` is the pre-approved
file's name in the from-hero branch.  The parsing / description calls are
external and stateless, so they do not appear.  `main` rewrites
`manifest.json` with an empty `images` list before the hero stage (lines
760-772), so the driver starts from an empty manifest. -/
def mainDriver (job_id timestamp : String) (fromHero : Bool)
    (heroImage : Option Nat) (hero_filename : String) (shots_list : List Shot)
    (envs : String → ShotEnv) (threshold maxAttempts : Nat) : DriverState :=
  let total := shots_list.length
  let ds : DriverState :=
    { status := emptyStatus, trace := [], images := [], completed := 0 }
  let ds := update_status ds
    { status := some "parsing", progress := some 2, currentImage := some 0,
      totalImages := some 18, currentVariation := none,
      message := some "Analyzing project description...", images := none }
  let ds := update_status ds
    { status := none, progress := none, currentImage := none,
      totalImages := some total, currentVariation := none,
      message := some "Project parsed, starting generation...", images := none }
  if fromHero then
    let ds := update_status ds
      { status := some "generating", progress := some 10, currentImage := some 1,
        totalImages := some total, currentVariation := some "hero_facade",
        message := some "Using approved hero image...", images := none }
    -- lines 819-827: the hero is appended unless the (just rewritten, hence
    -- empty) manifest already holds a hero entry.
    let ds :=
      if ds.images.any (fun img => img.isHero) then ds
      else save_image_to_manifest ds (heroEntry job_id hero_filename)
    let ds := { ds with completed := 1 }
    let ds := processShots threshold maxAttempts job_id timestamp envs total ds shots_list
    update_status ds
      { status := some "complete", progress := some 100,
        currentImage := some total, totalImages := some total,
        currentVariation := none,
        message := some ("Generated " ++ toString ds.completed ++ " images"),
        images := none }
  else
    let ds := update_status ds
      { status := some "generating_hero", progress := some 5, currentImage := some 1,
        totalImages := some 18, currentVariation := some "hero_facade",
        message := some "Generating primary facade (hero image)...", images := none }
    match heroImage with
    | none =>
        update_status ds
          { status := some "error", progress := none, currentImage := none,
            totalImages := none, currentVariation := none,
            message := some "Failed to generate hero image", images := none }
    | some _ =>
        let ds := save_image_to_manifest ds
          (heroEntry job_id ("hero_facade_" ++ timestamp ++ ".png"))
        let ds := { ds with completed := 1 }
        let ds := processShots threshold maxAttempts job_id timestamp envs total ds shots_list
        update_status ds
          { status := some "complete", progress := some 100,
            currentImage := some total, totalImages := some total,
            currentVariation := none,
            message := some ("Generated " ++ toString ds.completed ++ " images"),
            images := none }

/-- `manifest.json` as regenerate_single.py sees it: the image list plus the
`updated_at` stamp (modelled as an abstract tick). -/
structure Manifest where
  images : List ImageEntry
  updated_at : Option Nat
deriving Repr, DecidableEq

/-- The replacement scan of `update_manifest`
(regenerate_single.py lines 382-387): find the first entry whose
`variationType` matches, copy its `id` into the new record and overwrite the
slot; no match leaves the list untouched. -/
def update_images (variation_type : String) (new_image_data : ImageEntry) :
    List ImageEntry → List ImageEntry
  | [] => []
  | img :: rest =>
      if img.variationType = variation_type then
        { new_image_data with id := img.id } :: rest
      else
        img :: update_images variation_type new_image_data rest

/-- `update_manifest` (regenerate_single.py lines 374-401).  The mirroring of
`status.json`'s image list (lines 395-401) touches no claim and is omitted. -/
def update_manifest (m : Manifest) (variation_type : String)
    (new_image_data : ImageEntry) (now : Nat) : Manifest :=
  { images := update_images variation_type new_image_data m.images,
    updated_at := some now }

/-- `main` of regenerate_single.py (lines 404-545).  `none` models the
`sys.exit(1)` error paths (unknown shot type, no hero in the manifest, no
image generated); on success the new manifest and the stored entry (whose
`filename` is also the image file written to the output directory) are
returned. -/
def regenerate_single_main (m : Manifest) (job_id variation_type : String)
    (env : ShotEnv) (threshold maxAttempts : Nat) (timestamp : String)
    (now : Nat) : Option (Manifest × ImageEntry) :=
  match get_shot_by_id variation_type with
  | none => none
  | some shot =>
      match m.images.find? (fun img => img.isHero) with
      | none => none
      | some _ =>
          let profile := profileFor variation_type
          let st := runRefinementLoop threshold (envOutcomes env profile maxAttempts)
          match st.best_image_data with
          | none => none
          | some _ =>
              let filename := variation_type ++ "_" ++ timestamp ++ ".png"
              let image_entry : ImageEntry :=
                { id := none,
                  filename := filename,
                  url := "/api/images/" ++ job_id ++ "/" ++ filename,
                  variationType := variation_type,
                  category := shot.category,
                  name := shot.name,
                  isHero := false,
                  consistencyScore := st.best_score,
                  attempts := st.attempts,
                  lowConfidence := decide (st.best_score ≤ threshold),
                  scoreBreakdown := st.best_breakdown,
                  aspectRatio := get_aspect_ratio_for_shot variation_type }
              some (update_manifest m variation_type image_entry now, image_entry)

/-! ### Specification-side observers of the loop -/

/-- The judged scores appearing in a run of attempt outcomes (void attempts
contribute nothing). -/
def judgedScores : List AttemptOutcome → List Nat
  | [] => []
  | none :: rest => judgedScores rest
  | some (_, verification) :: rest => verification.total_score :: judgedScores rest

/-- Maximum of a list of naturals (0 for the empty list). -/
def maxNat (l : List Nat) : Nat := l.foldr max 0

/-- How many attempt slots the loop consumes before stopping: every outcome
up to and including the first judged one whose score strictly exceeds the
threshold, or the whole list when none does. -/
def consumedCount (threshold : Nat) : List AttemptOutcome → Nat
  | [] => 0
  | none :: rest => consumedCount threshold rest + 1
  | some (_, verification) :: rest =>
      (if threshold < verification.total_score then 0
       else consumedCount threshold rest) + 1

/-- The sequence of `progress` values of the successive `status.json`
documents written during a run (a write without a `progress` key keeps the
stored value, which the merged document exhibits). -/
def pTrace (ds : DriverState) : List Nat :=
  ds.trace.map (fun st => st.progress.getD 0)

/-- Executable check that a list of naturals is nondecreasing. -/
def nondecreasing : List Nat → Bool
  | [] => true
  | [_] => true
  | a :: b :: rest => decide (a ≤ b) && nondecreasing (b :: rest)

/-- Number of non-hero entries of a shot plan. -/
def countNonHero (shots : List Shot) : Nat :=
  (shots.filter (fun s => decide (s.id ≠ "hero_facade"))).length

/-- The refinement loop for shot id `sid` under environment `env` retains a
best candidate (so the driver stores a manifest entry for the shot). -/
def shotStored (T M : Nat) (env : ShotEnv) (sid : String) : Prop :=
  (runRefinementLoop T (envOutcomes env (profileFor sid) M)).best_image_data.isSome = true

/-- The driver-level progress invariant: the progress values written so far
are nondecreasing, the current status document is the last one written, and
its progress is bounded by the next per-shot progress value. -/
def ProgressInv (total : Nat) (ds : DriverState) : Prop :=
  List.Chain' (· ≤ ·) (pTrace ds)
    ∧ ds.trace.getLast? = some ds.status
    ∧ ∃ p, ds.status.progress = some p ∧ p ≤ ds.completed * 100 / total

/-! ### Concrete fixtures used to instantiate the theorems -/

/-- An environment whose synthesis always succeeds and whose judge always
returns 70/100 with an empty breakdown. -/
def envAlways70 : ShotEnv :=
  { synth := fun k => some k, judge := fun _ _ => ⟨70, [], [], []⟩ }

/-- An environment whose synthesis always succeeds and whose judge always
returns 0/100 (e.g. the `except` fallback of `verify_image`, which yields
`{"total_score": 0, ...}`). -/
def envAlways0 : ShotEnv :=
  { synth := fun k => some k, judge := fun _ _ => ⟨0, [], [], []⟩ }

/-- An environment whose synthesis always fails. -/
def envNoImage : ShotEnv :=
  { synth := fun _ => none, judge := fun _ _ => ⟨0, [], [], []⟩ }

/-- An environment whose synthesis always succeeds and whose judge always
returns 90/100. -/
def envAlways90 : ShotEnv :=
  { synth := fun k => some k, judge := fun _ _ => ⟨90, [], [], []⟩ }

/-- The non-hero shot used by several witnesses. -/
def streetShot : Shot := ⟨"context_street", "site_context", "Street Scene", 4, false⟩

/-- The entry `processShot` stores for `streetShot` under `envAlways70`
(threshold 80, three attempts). -/
def streetEntry70 : ImageEntry :=
  { id := some "job_2",
    filename := "context_street_ts.png",
    url := "/api/images/job/context_street_ts.png",
    variationType := "context_street",
    category := "site_context",
    name := "Street Scene",
    isHero := false,
    consistencyScore := 70,
    attempts := 3,
    lowConfidence := true,
    scoreBreakdown := some [],
    aspectRatio := "16:9" }

/-- A manifest holding only a hero entry, as used by the regeneration
witnesses. -/
def heroOnlyManifest : Manifest :=
  { images := [heroEntry "job" "hero_facade_ts.png"], updated_at := none }

/-- The entry `processShot` stores for `streetShot` under `envAlways90`
(threshold 80, three attempts: early exit on the first attempt). -/
def streetEntry90 : ImageEntry :=
  { id := some "job_2",
    filename := "context_street_ts.png",
    url := "/api/images/job/context_street_ts.png",
    variationType := "context_street",
    category := "site_context",
    name := "Street Scene",
    isHero := false,
    consistencyScore := 90,
    attempts := 1,
    lowConfidence := false,
    scoreBreakdown := some [],
    aspectRatio := "16:9" }

/-- An interior-classified shot, used by the profile-selection witness. -/
def kitchenShot : Shot := ⟨"interior_kitchen", "interior_spaces", "Kitchen", 11, false⟩

/-- The hero shot entry of `SHOT_TYPES`, used by the progress witness. -/
def heroFacadeShot : Shot := ⟨"hero_facade", "hero_shots", "Primary Facade", 1, true⟩

/-- The entry the regeneration path stores for `context_street` under
`envAlways90` (no `id` key yet — `update_manifest` fills it in). -/
def regenEntry90 : ImageEntry :=
  { id := none,
    filename := "context_street_ts.png",
    url := "/api/images/job/context_street_ts.png",
    variationType := "context_street",
    category := "site_context",
    name := "Street Scene",
    isHero := false,
    consistencyScore := 90,
    attempts := 1,
    lowConfidence := false,
    scoreBreakdown := some [],
    aspectRatio := "16:9" }

/-- `heroOnlyManifest` after a regeneration that matched no entry at tick 7. -/
def regenManifestAfter : Manifest :=
  { images := [heroEntry "job" "hero_facade_ts.png"], updated_at := some 7 }

/-- A manifest with a hero entry and a `context_street` entry. -/
def twoEntryManifest : Manifest :=
  { images := [heroEntry "job" "hero_facade_ts.png", streetEntry70],
    updated_at := none }

/-! ### Loop characterization lemmas -/

theorem recordAttempt_attempts (s : LoopState) (img : Nat) (v : JudgeResult) :
    (recordAttempt s img v).attempts = s.attempts + 1 := by
  unfold recordAttempt; split <;> rfl

theorem recordAttempt_best_score (s : LoopState) (img : Nat) (v : JudgeResult) :
    (recordAttempt s img v).best_score = max s.best_score v.total_score := by
  unfold recordAttempt; split <;> simp <;> omega

theorem maxNat_nil : maxNat [] = 0 := rfl

theorem maxNat_cons (x : Nat) (l : List Nat) : maxNat (x :: l) = max x (maxNat l) := rfl

theorem maxNat_le_iff (l : List Nat) (T : Nat) : maxNat l ≤ T ↔ ∀ x ∈ l, x ≤ T := by
  induction l with
  | nil => simp [maxNat_nil]
  | cons x l ih => simp [maxNat_cons, Nat.max_le, ih]

theorem maxNat_pos_iff (l : List Nat) : 0 < maxNat l ↔ ∃ x ∈ l, 0 < x := by
  induction l with
  | nil => simp [maxNat_nil]
  | cons x l ih => simp [maxNat_cons, lt_max_iff, ih]

theorem maxNat_append (l₁ l₂ : List Nat) :
    maxNat (l₁ ++ l₂) = max (maxNat l₁) (maxNat l₂) := by
  induction l₁ with
  | nil => simp [maxNat_nil, maxNat_cons]
  | cons x l ih => simp [maxNat_cons, ih]; omega

theorem judgedScores_append (l₁ l₂ : List AttemptOutcome) :
    judgedScores (l₁ ++ l₂) = judgedScores l₁ ++ judgedScores l₂ := by
  induction l₁ with
  | nil => rfl
  | cons o rest ih =>
      match o with
      | none => simpa [judgedScores] using ih
      | some (img, v) => simp [judgedScores, ih]

theorem mem_judgedScores (l : List AttemptOutcome) (x : Nat) :
    x ∈ judgedScores l ↔ ∃ img v, some (img, v) ∈ l ∧ v.total_score = x := by
  induction l with
  | nil => simp [judgedScores]
  | cons o rest ih =>
      match o with
      | none => simp [judgedScores, ih]
      | some (img, v) =>
          simp only [judgedScores, List.mem_cons, ih]
          constructor
          · rintro (h | ⟨i, w, hmem, hx⟩)
            · exact ⟨img, v, Or.inl rfl, h.symm⟩
            · exact ⟨i, w, Or.inr hmem, hx⟩
          · rintro ⟨i, w, (h | hmem), hx⟩
            · cases h; exact Or.inl hx.symm
            · exact Or.inr ⟨i, w, hmem, hx⟩

theorem consumedCount_le_length (T : Nat) (l : List AttemptOutcome) :
    consumedCount T l ≤ l.length := by
  induction l with
  | nil => simp [consumedCount]
  | cons o rest ih =>
      match o with
      | none => simp [consumedCount]; omega
      | some (img, v) => simp [consumedCount]; split <;> omega

theorem consumedCount_of_no_pass (T : Nat) (l : List AttemptOutcome)
    (h : ∀ img v, some (img, v) ∈ l → v.total_score ≤ T) :
    consumedCount T l = l.length := by
  induction l with
  | nil => rfl
  | cons o rest ih =>
      match o with
      | none =>
          simp only [consumedCount, List.length_cons]
          rw [ih (fun img v hm => h img v (List.mem_cons_of_mem _ hm))]
      | some (img, v) =>
          have hv : v.total_score ≤ T := h img v (List.mem_cons_self _ _)
          simp only [consumedCount, List.length_cons]
          rw [if_neg (by omega), ih (fun i w hm => h i w (List.mem_cons_of_mem _ hm))]

theorem consumedCount_lt_length (T : Nat) (l : List AttemptOutcome)
    (h : consumedCount T l < l.length) :
    ∃ img v, some (img, v) ∈ l.take (consumedCount T l) ∧ T < v.total_score := by
  induction l with
  | nil => simp [consumedCount] at h
  | cons o rest ih =>
      match o with
      | none =>
          simp only [consumedCount, List.length_cons] at h
          obtain ⟨img, v, hmem, hv⟩ := ih (by omega)
          refine ⟨img, v, ?_, hv⟩
          simp only [consumedCount, List.take_succ_cons]
          exact List.mem_cons_of_mem _ hmem
      | some (img, v) =>
          by_cases hv : T < v.total_score
          · refine ⟨img, v, ?_, hv⟩
            simp [consumedCount, hv, List.take_succ_cons]
          · simp only [consumedCount, if_neg hv, List.length_cons] at h
            obtain ⟨i, w, hmem, hw⟩ := ih (by omega)
            refine ⟨i, w, ?_, hw⟩
            simp only [consumedCount, if_neg hv, List.take_succ_cons]
            exact List.mem_cons_of_mem _ hmem

theorem runLoopList_attempts (T : Nat) (l : List AttemptOutcome) :
    ∀ s, (runLoopList T s l).attempts = s.attempts + consumedCount T l := by
  induction l with
  | nil => intro s; simp [runLoopList, consumedCount]
  | cons o rest ih =>
      intro s
      match o with
      | none =>
          simp only [runLoopList, consumedCount, ih]
          omega
      | some (img, v) =>
          simp only [runLoopList, consumedCount]
          by_cases hv : T < v.total_score
          · simp [hv, recordAttempt_attempts]
          · simp only [if_neg hv, ih]
            simp only [recordAttempt_attempts]
            omega

theorem runLoopList_best_score (T : Nat) (l : List AttemptOutcome) :
    ∀ s, (runLoopList T s l).best_score
      = max s.best_score (maxNat (judgedScores (l.take (consumedCount T l)))) := by
  induction l with
  | nil => intro s; simp [runLoopList, consumedCount, judgedScores, maxNat_nil]
  | cons o rest ih =>
      intro s
      match o with
      | none =>
          simp only [runLoopList, consumedCount, List.take_succ_cons, judgedScores, ih]
      | some (img, v) =>
          simp only [runLoopList, consumedCount]
          by_cases hv : T < v.total_score
          · simp [hv, recordAttempt_best_score, judgedScores, maxNat_cons, maxNat_nil]
          · simp only [if_neg hv, ih, List.take_succ_cons, judgedScores, maxNat_cons]
            simp [recordAttempt_best_score]
            omega

theorem runLoopList_isSome (T : Nat) (l : List AttemptOutcome) :
    ∀ s, (s.best_image_data.isSome = true ↔ 0 < s.best_score) →
      ((runLoopList T s l).best_image_data.isSome = true
        ↔ 0 < (runLoopList T s l).best_score) := by
  induction l with
  | nil => intro s h; simpa [runLoopList] using h
  | cons o rest ih =>
      intro s h
      match o with
      | none =>
          simp only [runLoopList]
          exact ih _ (by simpa using h)
      | some (img, v) =>
          have hrec : ((recordAttempt s img v).best_image_data.isSome = true
              ↔ 0 < (recordAttempt s img v).best_score) := by
            unfold recordAttempt
            split
            · simp; omega
            · simpa using h
          simp only [runLoopList]
          by_cases hv : T < v.total_score
          · simpa [hv] using hrec
          · simp only [if_neg hv]
            exact ih _ (by simpa using hrec)

theorem envOutcomes_length (env : ShotEnv) (profile : Profile) (M : Nat) :
    (envOutcomes env profile M).length = M := by
  simp [envOutcomes]

theorem pos_judged_take_iff (T : Nat) (l : List AttemptOutcome) :
    (∃ img v, some (img, v) ∈ l.take (consumedCount T l) ∧ 0 < v.total_score)
      ↔ ∃ img v, some (img, v) ∈ l ∧ 0 < v.total_score := by
  constructor
  · rintro ⟨img, v, hmem, hv⟩
    exact ⟨img, v, List.take_subset _ _ hmem, hv⟩
  · rintro ⟨img, v, hmem, hv⟩
    rcases Nat.lt_or_ge (consumedCount T l) l.length with hlt | hge
    · obtain ⟨i, w, hm, hw⟩ := consumedCount_lt_length T l hlt
      exact ⟨i, w, hm, by omega⟩
    · have hc : consumedCount T l = l.length :=
        Nat.le_antisymm (consumedCount_le_length T l) hge
      rw [hc, List.take_length]
      exact ⟨img, v, hmem, hv⟩

theorem all_take_le_iff (T : Nat) (l : List AttemptOutcome) :
    (∀ img v, some (img, v) ∈ l.take (consumedCount T l) → v.total_score ≤ T)
      ↔ ∀ img v, some (img, v) ∈ l → v.total_score ≤ T := by
  constructor
  · intro h img v hmem
    rcases Nat.lt_or_ge (consumedCount T l) l.length with hlt | hge
    · obtain ⟨i, w, hm, hw⟩ := consumedCount_lt_length T l hlt
      have := h i w hm
      omega
    · have hc : consumedCount T l = l.length :=
        Nat.le_antisymm (consumedCount_le_length T l) hge
      exact h img v (by rw [hc, List.take_length]; exact hmem)
  · intro h img v hmem
    exact h img v (List.take_subset _ _ hmem)

theorem runRefinementLoop_attempts (T : Nat) (l : List AttemptOutcome) :
    (runRefinementLoop T l).attempts = consumedCount T l := by
  rw [runRefinementLoop, runLoopList_attempts]
  simp [initLoopState]

theorem runRefinementLoop_best_score_eq (T : Nat) (l : List AttemptOutcome) :
    (runRefinementLoop T l).best_score
      = maxNat (judgedScores (l.take (consumedCount T l))) := by
  rw [runRefinementLoop, runLoopList_best_score]
  simp only [initLoopState]
  omega

/-- The loop retains a best candidate iff some attempt produced an image that
the judge scored strictly positively. -/
theorem runRefinementLoop_isSome_iff (T : Nat) (l : List AttemptOutcome) :
    (runRefinementLoop T l).best_image_data.isSome = true
      ↔ ∃ img v, some (img, v) ∈ l ∧ 0 < v.total_score := by
  have h0 : (initLoopState.best_image_data.isSome = true ↔ 0 < initLoopState.best_score) := by
    simp [initLoopState]
  have h1 := runLoopList_isSome T l initLoopState h0
  rw [runRefinementLoop, h1]
  have h2 : (runLoopList T initLoopState l).best_score
      = maxNat (judgedScores (l.take (consumedCount T l))) := by
    rw [runLoopList_best_score]
    simp only [initLoopState]
    omega
  rw [h2, maxNat_pos_iff]
  constructor
  · rintro ⟨x, hx, hpos⟩
    obtain ⟨img, v, hmem, rfl⟩ := (mem_judgedScores _ _).mp hx
    exact (pos_judged_take_iff T l).mp ⟨img, v, hmem, hpos⟩
  · intro h
    obtain ⟨img, v, hmem, hv⟩ := (pos_judged_take_iff T l).mpr h
    exact ⟨v.total_score, (mem_judgedScores _ _).mpr ⟨img, v, hmem, rfl⟩, hv⟩

/-- The retained best score passes the threshold iff some judged candidate
did. -/
theorem runRefinementLoop_best_le_iff (T : Nat) (l : List AttemptOutcome) :
    (runRefinementLoop T l).best_score ≤ T
      ↔ ∀ img v, some (img, v) ∈ l → v.total_score ≤ T := by
  rw [runRefinementLoop_best_score_eq, maxNat_le_iff]
  constructor
  · intro h
    refine (all_take_le_iff T l).mp ?_
    intro img v hmem
    exact h v.total_score ((mem_judgedScores _ _).mpr ⟨img, v, hmem, rfl⟩)
  · intro h x hx
    obtain ⟨img, v, hmem, rfl⟩ := (mem_judgedScores _ _).mp hx
    exact h img v (List.take_subset _ _ hmem)

theorem consumedCount_pos (T : Nat) (o : AttemptOutcome) (rest : List AttemptOutcome) :
    1 ≤ consumedCount T (o :: rest) := by
  match o with
  | none => simp [consumedCount]
  | some (img, v) => simp [consumedCount]

theorem consumedCount_append_no_pass (T : Nat) (pre l₂ : List AttemptOutcome)
    (h : ∀ img v, some (img, v) ∈ pre → v.total_score ≤ T) :
    consumedCount T (pre ++ l₂) = pre.length + consumedCount T l₂ := by
  induction pre with
  | nil => simp
  | cons o rest ih =>
      match o with
      | none =>
          have ih' := ih (fun i w hm => h i w (List.mem_cons_of_mem _ hm))
          simp only [List.cons_append, consumedCount, List.length_cons,
            List.append_eq] at *
          omega
      | some (img, v) =>
          have hv : v.total_score ≤ T := h img v (List.mem_cons_self _ _)
          have ih' := ih (fun i w hm => h i w (List.mem_cons_of_mem _ hm))
          simp only [List.cons_append, consumedCount, List.length_cons,
            if_neg (by omega : ¬ T < v.total_score), List.append_eq] at *
          omega

theorem foldl_filter_map {α β : Type} (p : α → Prop) [DecidablePred p] (f : α → β) :
    ∀ (l : List α) (init : List β),
      l.foldl (fun acc c => if p c then acc ++ [f c] else acc) init
        = init ++ (l.filter (fun c => decide (p c))).map f := by
  intro l
  induction l with
  | nil => intro init; simp
  | cons x l ih =>
      intro init
      by_cases hx : p x
      · simp [List.foldl_cons, hx, ih, List.filter_cons]
      · simp [List.foldl_cons, hx, ih, List.filter_cons]

theorem foldl_snoc_map {α β : Type} (f : α → β) :
    ∀ (l : List α) (init : List β),
      l.foldl (fun acc x => acc ++ [f x]) init = init ++ l.map f := by
  intro l
  induction l with
  | nil => intro init; simp
  | cons x l ih => intro init; simp [List.foldl_cons, ih]

/-- `build_fixing_prompt` spelled out: the `<fixes_required>` header, one
`<fix>` directive per criterion strictly below 16/20, every issue and every
suggestion verbatim, and the footer — all derived from one verification
result. -/
theorem build_fixing_prompt_decomp (v : JudgeResult) :
    build_fixing_prompt v = String.intercalate "\n"
      (["<fixes_required>"]
        ++ (v.breakdown.filter (fun c => decide (c.2 < 16))).map (fun c => fix_line c.1 c.2)
        ++ v.issues.map (fun issue => "<issue>" ++ issue ++ "</issue>")
        ++ v.suggestions.map (fun sg => "<suggestion>" ++ sg ++ "</suggestion>")
        ++ ["</fixes_required>"]) := by
  unfold build_fixing_prompt
  dsimp only
  rw [foldl_filter_map (fun c : String × Nat => c.2 < 16) (fun c => fix_line c.1 c.2),
    foldl_snoc_map, foldl_snoc_map]

theorem recordAttempt_fixing (s : LoopState) (fp : Option String)
    (img : Nat) (v : JudgeResult) :
    recordAttempt { s with fixing_prompt := fp } img v
      = { recordAttempt s img v with fixing_prompt := fp } := by
  simp only [recordAttempt]
  split <;> rfl

/-! ### Claim theorems: the refinement loop -/

/-- C5: as soon as an attempt's judged score strictly exceeds the acceptance
threshold, the loop terminates: `attempts` counts only the attempts up to and
including the passing one (the remaining budget is untouched, whatever
`rest` holds), the stored score is the maximum judged score seen, it beats
the threshold, and a best image is retained — so with
`max_attempts = 3, threshold = 80` and scores `[55, 90]` the loop ends after
attempt 2 with score 90 and `low_confidence = false`. -/
theorem refinement_loop_early_exit (T : Nat) (pre rest : List AttemptOutcome)
    (img : Nat) (v : JudgeResult)
    (hpre : ∀ x ∈ judgedScores pre, x ≤ T)
    (hv : T < v.total_score) :
    (runRefinementLoop T (pre ++ some (img, v) :: rest)).attempts = pre.length + 1
      ∧ (runRefinementLoop T (pre ++ some (img, v) :: rest)).best_score
          = max (maxNat (judgedScores pre)) v.total_score
      ∧ T < (runRefinementLoop T (pre ++ some (img, v) :: rest)).best_score
      ∧ decide ((runRefinementLoop T (pre ++ some (img, v) :: rest)).best_score ≤ T)
          = false := by
  have hpre' : ∀ i w, some (i, w) ∈ pre → w.total_score ≤ T := by
    intro i w hm
    exact hpre w.total_score ((mem_judgedScores _ _).mpr ⟨i, w, hm, rfl⟩)
  have hcons : consumedCount T (some (img, v) :: rest) = 1 := by
    simp [consumedCount, hv]
  have hcount : consumedCount T (pre ++ some (img, v) :: rest) = pre.length + 1 := by
    rw [consumedCount_append_no_pass T pre _ hpre', hcons]
  have htake : (pre ++ some (img, v) :: rest).take (pre.length + 1)
      = pre ++ [some (img, v)] := by
    rw [List.take_append_eq_append_take]
    simp
  have hbest : (runRefinementLoop T (pre ++ some (img, v) :: rest)).best_score
      = max (maxNat (judgedScores pre)) v.total_score := by
    rw [runRefinementLoop_best_score_eq, hcount, htake, judgedScores_append,
      maxNat_append]
    simp [judgedScores, maxNat_cons, maxNat_nil]
  refine ⟨?_, hbest, ?_, ?_⟩
  · rw [runRefinementLoop_attempts, hcount]
  · rw [hbest]; omega
  · rw [hbest]; simp; omega

/-- C5 witness: `max_attempts = 3, threshold = 80`, scores `[55, 90, —]`. -/
theorem refinement_loop_early_exit_witness :
    (∀ x ∈ judgedScores [some (1, ⟨55, [], [], []⟩)], x ≤ 80)
      ∧ ((runRefinementLoop 80
            ([some (1, ⟨55, [], [], []⟩)] ++ some (2, (⟨90, [], [], []⟩ : JudgeResult)) :: [none])).attempts
            = [some (1, (⟨55, [], [], []⟩ : JudgeResult))].length + 1
          ∧ (runRefinementLoop 80
              ([some (1, ⟨55, [], [], []⟩)] ++ some (2, (⟨90, [], [], []⟩ : JudgeResult)) :: [none])).best_score
              = max (maxNat (judgedScores [some (1, ⟨55, [], [], []⟩)])) (90 : Nat)
          ∧ 80 < (runRefinementLoop 80
              ([some (1, ⟨55, [], [], []⟩)] ++ some (2, (⟨90, [], [], []⟩ : JudgeResult)) :: [none])).best_score
          ∧ decide ((runRefinementLoop 80
              ([some (1, ⟨55, [], [], []⟩)] ++ some (2, (⟨90, [], [], []⟩ : JudgeResult)) :: [none])).best_score ≤ 80)
              = false) :=
  ⟨by decide,
   refinement_loop_early_exit 80 [some (1, ⟨55, [], [], []⟩)] [none] 2
     ⟨90, [], [], []⟩ (by decide) (by decide)⟩

/-- C6: on a failing judged attempt the loop continues with
`fixing_prompt` rebuilt from that attempt's verification alone — whatever
feedback `fp` was previously held is discarded, not concatenated — and the
rebuilt feedback is exactly the `<fixes_required>` block holding one
directive per criterion scoring below 16/20 followed by every issue and
every suggestion verbatim. -/
theorem fixing_feedback_rebuilt (T : Nat) (s : LoopState) (fp : Option String)
    (img : Nat) (v : JudgeResult) (rest : List AttemptOutcome)
    (hfail : v.total_score ≤ T) :
    runLoopList T { s with fixing_prompt := fp } (some (img, v) :: rest)
      = runLoopList T
          { recordAttempt s img v with
            fixing_prompt := some (build_fixing_prompt v) } rest
    ∧ build_fixing_prompt v = String.intercalate "\n"
        (["<fixes_required>"]
          ++ (v.breakdown.filter (fun c => decide (c.2 < 16))).map
              (fun c => fix_line c.1 c.2)
          ++ v.issues.map (fun issue => "<issue>" ++ issue ++ "</issue>")
          ++ v.suggestions.map (fun sg => "<suggestion>" ++ sg ++ "</suggestion>")
          ++ ["</fixes_required>"]) := by
  constructor
  · simp only [runLoopList]
    rw [if_neg (by omega), recordAttempt_fixing]
  · exact build_fixing_prompt_decomp v

/-- C6 witness: a failing attempt (score 60 ≤ 80) with one weak criterion,
one issue and one suggestion, entering with stale feedback. -/
theorem fixing_feedback_rebuilt_witness :
    ((⟨60, [("building_shape", 10), ("proportions", 20)], ["issue a"], ["try b"]⟩ : JudgeResult).total_score ≤ 80)
      ∧ (runLoopList 80 { initLoopState with fixing_prompt := some "stale" }
            (some (3, ⟨60, [("building_shape", 10), ("proportions", 20)], ["issue a"], ["try b"]⟩) :: [])
          = runLoopList 80
              { recordAttempt initLoopState 3
                  ⟨60, [("building_shape", 10), ("proportions", 20)], ["issue a"], ["try b"]⟩ with
                fixing_prompt := some (build_fixing_prompt
                  ⟨60, [("building_shape", 10), ("proportions", 20)], ["issue a"], ["try b"]⟩) } []
        ∧ build_fixing_prompt
            ⟨60, [("building_shape", 10), ("proportions", 20)], ["issue a"], ["try b"]⟩
            = String.intercalate "\n"
              (["<fixes_required>"]
                ++ (([("building_shape", 10), ("proportions", 20)] : List (String × Nat)).filter
                    (fun c => decide (c.2 < 16))).map (fun c => fix_line c.1 c.2)
                ++ ["issue a"].map (fun issue => "<issue>" ++ issue ++ "</issue>")
                ++ ["try b"].map (fun sg => "<suggestion>" ++ sg ++ "</suggestion>")
                ++ ["</fixes_required>"])) :=
  ⟨by decide,
   fixing_feedback_rebuilt 80 initLoopState (some "stale") 3
     ⟨60, [("building_shape", 10), ("proportions", 20)], ["issue a"], ["try b"]⟩ []
     (by decide)⟩

/-- Shared unfolding of a successful `processShot`: the stored entry's
score-related fields in terms of the loop outcome. -/
theorem processShot_some_inv (T M : Nat) (job_id timestamp : String)
    (completed : Nat) (shot : Shot) (env : ShotEnv) (e : ImageEntry)
    (h : processShot T M job_id timestamp completed shot env = some e) :
    (runRefinementLoop T (envOutcomes env (profileFor shot.id) M)).best_image_data.isSome = true
      ∧ e.consistencyScore
          = (runRefinementLoop T (envOutcomes env (profileFor shot.id) M)).best_score
      ∧ e.attempts = (runRefinementLoop T (envOutcomes env (profileFor shot.id) M)).attempts
      ∧ e.lowConfidence = decide
          ((runRefinementLoop T (envOutcomes env (profileFor shot.id) M)).best_score ≤ T)
      ∧ e.variationType = shot.id := by
  unfold processShot at h
  dsimp only at h
  cases hb : (runRefinementLoop T (envOutcomes env (profileFor shot.id) M)).best_image_data with
  | none => rw [hb] at h; simp at h
  | some img =>
      rw [hb] at h
      simp only [Option.some.injEq] at h
      subst h
      simp [hb]

theorem is_interior_shot_iff (sid : String) :
    is_interior_shot sid = true ↔ sid ∈ INTERIOR_SHOT_IDS := by
  simp [is_interior_shot]

/-- C3: for every stored entry, `lowConfidence` holds iff the stored (best)
score does not exceed the threshold — equivalently, iff the loop consumed
all `max_attempts` slots and no judged candidate strictly exceeded the
threshold; the same holds for the entry the regeneration path stores. -/
theorem low_confidence_iff_threshold (T M : Nat) (job_id timestamp : String)
    (completed : Nat) (shot : Shot) (env : ShotEnv) (e : ImageEntry)
    (h : processShot T M job_id timestamp completed shot env = some e) :
    ((e.lowConfidence = true ↔ e.consistencyScore ≤ T)
      ∧ (e.lowConfidence = true
          ↔ (e.attempts = M
              ∧ ∀ img v, some (img, v) ∈ envOutcomes env (profileFor shot.id) M
                  → v.total_score ≤ T)))
    ∧ ∀ (m : Manifest) (jid vt ts : String) (env' : ShotEnv) (now : Nat)
        (m' : Manifest) (e' : ImageEntry),
        regenerate_single_main m jid vt env' T M ts now = some (m', e')
        → (e'.lowConfidence = true ↔ e'.consistencyScore ≤ T) := by
  obtain ⟨hsome, hscore, hatt, hlow, hvt⟩ :=
    processShot_some_inv T M job_id timestamp completed shot env e h
  constructor
  · constructor
    · rw [hlow, hscore]
      simp
    · constructor
      · intro hd
        rw [hlow] at hd
        have hle := of_decide_eq_true hd
        have hall := (runRefinementLoop_best_le_iff T _).mp hle
        refine ⟨?_, hall⟩
        rw [hatt, runRefinementLoop_attempts,
          consumedCount_of_no_pass T _ hall, envOutcomes_length]
      · rintro ⟨-, hall⟩
        rw [hlow]
        simp only [decide_eq_true_eq]
        exact (runRefinementLoop_best_le_iff T _).mpr hall
  · intro m jid vt ts env' now m' e' h'
    unfold regenerate_single_main at h'
    cases hshot : get_shot_by_id vt with
    | none => rw [hshot] at h'; simp at h'
    | some shot' =>
        rw [hshot] at h'
        cases hhero : m.images.find? (fun img => img.isHero) with
        | none => rw [hhero] at h'; simp at h'
        | some hx =>
            rw [hhero] at h'
            dsimp only at h'
            cases hb : (runRefinementLoop T (envOutcomes env' (profileFor vt) M)).best_image_data with
            | none => rw [hb] at h'; simp at h'
            | some i =>
                rw [hb] at h'
                simp only [Option.some.injEq, Prod.mk.injEq] at h'
                obtain ⟨-, he'⟩ := h'
                subst he'
                simp

/-- C3 witness: three attempts all judged 70/100 under threshold 80. -/
theorem low_confidence_iff_threshold_witness :
    processShot 80 3 "job" "ts" 1 streetShot envAlways70 = some streetEntry70
      ∧ (((streetEntry70.lowConfidence = true ↔ streetEntry70.consistencyScore ≤ 80)
          ∧ (streetEntry70.lowConfidence = true
              ↔ (streetEntry70.attempts = 3
                  ∧ ∀ img v, some (img, v) ∈ envOutcomes envAlways70 (profileFor streetShot.id) 3
                      → v.total_score ≤ 80)))
        ∧ ∀ (m : Manifest) (jid vt ts : String) (env' : ShotEnv) (now : Nat)
            (m' : Manifest) (e' : ImageEntry),
            regenerate_single_main m jid vt env' 80 3 ts now = some (m', e')
            → (e'.lowConfidence = true ↔ e'.consistencyScore ≤ 80)) :=
  ⟨by decide,
   low_confidence_iff_threshold 80 3 "job" "ts" 1 streetShot envAlways70
     streetEntry70 (by decide)⟩

/-- C4: every stored entry consumed between 1 and `max_attempts` attempt
slots (void attempts included in the count), and its stored score is the
maximum judged score among the attempts the loop consumed — attempts whose
synthesis produced no image contribute no judged score. -/
theorem stored_attempts_bounds_and_max_score (T M : Nat)
    (job_id timestamp : String) (completed : Nat) (shot : Shot) (env : ShotEnv)
    (e : ImageEntry)
    (h : processShot T M job_id timestamp completed shot env = some e) :
    1 ≤ e.attempts ∧ e.attempts ≤ M
      ∧ e.consistencyScore
          = maxNat (judgedScores
              ((envOutcomes env (profileFor shot.id) M).take e.attempts)) := by
  obtain ⟨hsome, hscore, hatt, hlow, hvt⟩ :=
    processShot_some_inv T M job_id timestamp completed shot env e h
  refine ⟨?_, ?_, ?_⟩
  · rw [hatt, runRefinementLoop_attempts]
    cases hl : envOutcomes env (profileFor shot.id) M with
    | nil =>
        exfalso
        rw [hl] at hsome
        simp [runRefinementLoop, runLoopList, initLoopState] at hsome
    | cons o rest =>
        exact consumedCount_pos T o rest
  · rw [hatt, runRefinementLoop_attempts]
    calc consumedCount T (envOutcomes env (profileFor shot.id) M)
        ≤ (envOutcomes env (profileFor shot.id) M).length :=
          consumedCount_le_length T _
      _ = M := envOutcomes_length env _ M
  · rw [hscore, hatt, runRefinementLoop_attempts, runRefinementLoop_best_score_eq]

/-- C4 witness: judge always returns 90/100, threshold 80: early exit on the
first attempt, stored score 90 = the maximum judged score. -/
theorem stored_attempts_bounds_and_max_score_witness :
    processShot 80 3 "job" "ts" 1 streetShot envAlways90 = some streetEntry90
      ∧ (1 ≤ streetEntry90.attempts ∧ streetEntry90.attempts ≤ 3
          ∧ streetEntry90.consistencyScore
              = maxNat (judgedScores
                  ((envOutcomes envAlways90 (profileFor streetShot.id) 3).take
                    streetEntry90.attempts))) :=
  ⟨by decide,
   stored_attempts_bounds_and_max_score 80 3 "job" "ts" 1 streetShot envAlways90
     streetEntry90 (by decide)⟩

/-- C7: for every non-hero shot the verification profile is a pure function
of `shot_id` membership in the fixed interior-shot set — an interior id is
judged under the interior rubric and never consults the exterior one (the
stored result is invariant under arbitrary changes to the exterior-rubric
judge), and any non-interior id gets the exterior rubric. -/
theorem interior_profile_selection (sid : String) (shot : Shot)
    (synth : Nat → Option Nat) (j₁ j₂ : Profile → Nat → JudgeResult)
    (T M : Nat) (job_id timestamp : String) (completed : Nat) :
    (sid ∈ INTERIOR_SHOT_IDS → profileFor sid = Profile.interior)
      ∧ (sid ∉ INTERIOR_SHOT_IDS → profileFor sid = Profile.exterior)
      ∧ (shot.id ∈ INTERIOR_SHOT_IDS
          → (∀ k, j₁ Profile.interior k = j₂ Profile.interior k)
          → processShot T M job_id timestamp completed shot ⟨synth, j₁⟩
              = processShot T M job_id timestamp completed shot ⟨synth, j₂⟩) := by
  refine ⟨?_, ?_, ?_⟩
  · intro hmem
    rw [profileFor, if_pos ((is_interior_shot_iff sid).mpr hmem)]
  · intro hmem
    rw [profileFor, if_neg]
    intro hc
    exact hmem ((is_interior_shot_iff sid).mp hc)
  · intro hmem hj
    have hp : profileFor shot.id = Profile.interior :=
      by rw [profileFor, if_pos ((is_interior_shot_iff shot.id).mpr hmem)]
    have henv : envOutcomes ⟨synth, j₁⟩ (profileFor shot.id) M
        = envOutcomes ⟨synth, j₂⟩ (profileFor shot.id) M := by
      rw [hp]
      unfold envOutcomes
      apply List.map_congr_left
      intro k _
      cases hsy : synth (k + 1) with
      | none => simp [hsy]
      | some i => simp [hsy, hj (k + 1)]
    unfold processShot
    dsimp only
    rw [henv]

/-- C7 witness: `interior_kitchen` is interior-classified, `context_street`
is not, and the stored result of an interior shot is unchanged when the two
judges agree on the interior rubric but disagree wildly on the exterior
one. -/
theorem interior_profile_selection_witness :
    profileFor "interior_kitchen" = Profile.interior
      ∧ profileFor "context_street" = Profile.exterior
      ∧ processShot 80 3 "job" "ts" 1 kitchenShot
          ⟨fun k => some k, fun p _ => match p with
            | Profile.interior => ⟨70, [], [], []⟩
            | Profile.exterior => ⟨99, [], [], []⟩⟩
        = processShot 80 3 "job" "ts" 1 kitchenShot
          ⟨fun k => some k, fun p _ => match p with
            | Profile.interior => ⟨70, [], [], []⟩
            | Profile.exterior => ⟨1, [], [], []⟩⟩ :=
  ⟨(interior_profile_selection "interior_kitchen" kitchenShot (fun _ => none)
      (fun _ _ => ⟨0, [], [], []⟩) (fun _ _ => ⟨0, [], [], []⟩) 80 3 "job" "ts" 1).1
      (by decide),
   (interior_profile_selection "context_street" kitchenShot (fun _ => none)
      (fun _ _ => ⟨0, [], [], []⟩) (fun _ _ => ⟨0, [], [], []⟩) 80 3 "job" "ts" 1).2.1
      (by decide),
   (interior_profile_selection "interior_kitchen" kitchenShot (fun k => some k)
      (fun p _ => match p with
        | Profile.interior => ⟨70, [], [], []⟩
        | Profile.exterior => ⟨99, [], [], []⟩)
      (fun p _ => match p with
        | Profile.interior => ⟨70, [], [], []⟩
        | Profile.exterior => ⟨1, [], [], []⟩) 80 3 "job" "ts" 1).2.2
      (by decide) (fun _ => rfl)⟩



theorem get_all_shots_ordered_eq : get_all_shots_ordered = SHOT_TYPES := by
  unfold get_all_shots_ordered
  exact List.mergeSort_of_sorted (by decide)

theorem shots_dual_occupancy :
    get_shots_for_project_type "dual_occupancy" 2 = SHOT_TYPES := by
  unfold get_shots_for_project_type
  dsimp only
  rw [if_neg (by decide)]
  exact get_all_shots_ordered_eq

theorem update_status_images (ds : DriverState) (u : Status) :
    (update_status ds u).images = ds.images := rfl

theorem update_status_completed (ds : DriverState) (u : Status) :
    (update_status ds u).completed = ds.completed := rfl

theorem emitVerifying_images (name : String) :
    ∀ (n : Nat) (ds : DriverState), (emitVerifying name ds n).images = ds.images := by
  intro n
  induction n with
  | zero => intro ds; rfl
  | succ n ih => intro ds; rw [emitVerifying, ih, update_status_images]

theorem emitVerifying_completed (name : String) :
    ∀ (n : Nat) (ds : DriverState), (emitVerifying name ds n).completed = ds.completed := by
  intro n
  induction n with
  | zero => intro ds; rfl
  | succ n ih => intro ds; rw [emitVerifying, ih, update_status_completed]

theorem save_image_to_manifest_images (ds : DriverState) (e : ImageEntry) :
    (save_image_to_manifest ds e).images = ds.images ++ [e] := rfl

theorem processShot_isSome_iff (T M : Nat) (jid ts : String) (c : Nat)
    (shot : Shot) (env : ShotEnv) :
    (∃ e, processShot T M jid ts c shot env = some e)
      ↔ shotStored T M env shot.id := by
  unfold processShot shotStored
  dsimp only
  cases hb : (runRefinementLoop T (envOutcomes env (profileFor shot.id) M)).best_image_data with
  | none => simp [hb]
  | some i => simp [hb]

/-- A shot's manifest entry exists iff some attempt produced an image whose
judged score (under the shot's selected profile) is strictly positive. -/
theorem shotStored_iff (T M : Nat) (env : ShotEnv) (sid : String) :
    shotStored T M env sid
      ↔ ∃ k, k < M ∧ ∃ img, env.synth (k + 1) = some img
          ∧ 0 < (env.judge (profileFor sid) (k + 1)).total_score := by
  unfold shotStored
  rw [runRefinementLoop_isSome_iff]
  constructor
  · rintro ⟨img, v, hmem, hv⟩
    simp only [envOutcomes, List.mem_map, List.mem_range] at hmem
    obtain ⟨k, hk, heq⟩ := hmem
    cases hsy : env.synth (k + 1) with
    | none => rw [hsy] at heq; simp at heq
    | some i =>
        rw [hsy] at heq
        simp only [Option.some.injEq, Prod.mk.injEq] at heq
        obtain ⟨h1, h2⟩ := heq
        exact ⟨k, hk, i, hsy, by rw [h2]; exact hv⟩
  · rintro ⟨k, hk, img, hsy, hpos⟩
    refine ⟨img, env.judge (profileFor sid) (k + 1), ?_, hpos⟩
    simp only [envOutcomes, List.mem_map, List.mem_range]
    exact ⟨k, hk, by rw [hsy]⟩

/-- Which per-shot entries the driver's main loop adds to the manifest:
an entry with `variationType = v` exists after processing iff it existed
before, or some non-hero shot of the plan has id `v` and its loop stored a
result. -/
theorem processShots_mem_variation (T M : Nat) (jid ts : String)
    (envs : String → ShotEnv) (total : Nat) (v : String) :
    ∀ (shots : List Shot) (ds : DriverState),
      (∃ e ∈ (processShots T M jid ts envs total ds shots).images, e.variationType = v)
        ↔ ((∃ e ∈ ds.images, e.variationType = v)
            ∨ ∃ shot ∈ shots, shot.id = v ∧ shot.id ≠ "hero_facade"
                ∧ shotStored T M (envs shot.id) shot.id) := by
  intro shots
  induction shots with
  | nil =>
      intro ds
      simp [processShots]
  | cons shot rest ih =>
      intro ds
      by_cases hh : shot.id = "hero_facade"
      · simp only [processShots, if_pos hh]
        rw [ih]
        constructor
        · rintro (h | ⟨s, hs, h1, h2, h3⟩)
          · exact Or.inl h
          · exact Or.inr ⟨s, List.mem_cons_of_mem _ hs, h1, h2, h3⟩
        · rintro (h | ⟨s, hs, h1, h2, h3⟩)
          · exact Or.inl h
          · rcases List.mem_cons.mp hs with rfl | hs'
            · exact absurd hh h2
            · exact Or.inr ⟨s, hs', h1, h2, h3⟩
      · simp only [processShots, if_neg hh]
        split
        · next heq =>
            rw [ih]
            rw [emitVerifying_images, update_status_images]
            have hnostore : ¬ shotStored T M (envs shot.id) shot.id := by
              rw [← processShot_isSome_iff T M jid ts _ shot (envs shot.id)]
              rintro ⟨e, he⟩
              rw [heq] at he
              exact Option.noConfusion he
            constructor
            · rintro (h | ⟨s, hs, h1, h2, h3⟩)
              · exact Or.inl h
              · exact Or.inr ⟨s, List.mem_cons_of_mem _ hs, h1, h2, h3⟩
            · rintro (h | ⟨s, hs, h1, h2, h3⟩)
              · exact Or.inl h
              · rcases List.mem_cons.mp hs with rfl | hs'
                · exact absurd h3 hnostore
                · exact Or.inr ⟨s, hs', h1, h2, h3⟩
        · next e heq =>
            rw [ih]
            simp only [save_image_to_manifest, emitVerifying_images, update_status_images]
            have hevt : e.variationType = shot.id :=
              (processShot_some_inv T M jid ts _ shot (envs shot.id) e heq).2.2.2.2
            have hstored : shotStored T M (envs shot.id) shot.id :=
              (processShot_isSome_iff T M jid ts _ shot (envs shot.id)).mp ⟨e, heq⟩
            constructor
            · rintro (⟨x, hx, hxv⟩ | ⟨s, hs, h1, h2, h3⟩)
              · rcases List.mem_append.mp hx with hx' | hx'
                · exact Or.inl ⟨x, hx', hxv⟩
                · have hxe : x = e := List.mem_singleton.mp hx'
                  subst hxe
                  refine Or.inr ⟨shot, List.mem_cons_self _ _, ?_, hh, hstored⟩
                  rw [← hevt]
                  exact hxv
              · exact Or.inr ⟨s, List.mem_cons_of_mem _ hs, h1, h2, h3⟩
            · rintro (⟨x, hx, hxv⟩ | ⟨s, hs, h1, h2, h3⟩)
              · exact Or.inl ⟨x, List.mem_append.mpr (Or.inl hx), hxv⟩
              · rcases List.mem_cons.mp hs with rfl | hs'
                · refine Or.inl ⟨e, List.mem_append.mpr (Or.inr (List.mem_singleton.mpr rfl)), ?_⟩
                  rw [hevt]
                  exact h1
                · exact Or.inr ⟨s, hs', h1, h2, h3⟩

/-- C1 (amended): a non-hero shot id `v` has a Manifest entry after the run
iff the plan contains a shot with that id and some attempt produced an image
whose judged score is strictly positive.  (The claim as frozen — an entry
exists whenever some attempt produced an image — fails when every produced
image is judged 0, because `score > best_score` never fires with both
sides 0; see the counterexample.) -/
theorem manifest_entry_iff_positive_judged (jid ts hf : String) (h : Nat)
    (shots : List Shot) (envs : String → ShotEnv) (T M : Nat) (v : String)
    (hv : v ≠ "hero_facade") :
    (∃ e ∈ (mainDriver jid ts false (some h) hf shots envs T M).images,
        e.variationType = v)
      ↔ ((∃ shot ∈ shots, shot.id = v)
          ∧ ∃ k, k < M ∧ ∃ img, (envs v).synth (k + 1) = some img
              ∧ 0 < ((envs v).judge (profileFor v) (k + 1)).total_score) := by
  simp only [mainDriver, Bool.false_eq_true, if_false]
  rw [update_status_images, processShots_mem_variation]
  simp only [save_image_to_manifest, update_status_images, List.nil_append]
  constructor
  · rintro (⟨e, he, hev⟩ | ⟨s, hs, h1, h2, h3⟩)
    · exfalso
      have he' : e = heroEntry jid ("hero_facade_" ++ ts ++ ".png") :=
        List.mem_singleton.mp he
      subst he'
      exact hv (by simpa [heroEntry] using hev.symm)
    · subst h1
      exact ⟨⟨s, hs, rfl⟩, (shotStored_iff T M (envs s.id) s.id).mp h3⟩
  · rintro ⟨⟨s, hs, h1⟩, hpos⟩
    subst h1
    exact Or.inr ⟨s, hs, rfl, hv, (shotStored_iff T M (envs s.id) s.id).mpr hpos⟩

/-- C1 witness: with a judge scoring every candidate 70, `context_street`
gets a Manifest entry iff one of its attempts produced a positively judged
image. -/
theorem manifest_entry_iff_positive_judged_witness :
    ("context_street" ≠ "hero_facade")
      ∧ ((∃ e ∈ (mainDriver "job" "ts" false (some 5) "h.png" SHOT_TYPES
              (fun _ => envAlways70) 80 3).images,
            e.variationType = "context_street")
          ↔ ((∃ shot ∈ SHOT_TYPES, shot.id = "context_street")
              ∧ ∃ k, k < 3 ∧ ∃ img,
                  ((fun _ : String => envAlways70) "context_street").synth (k + 1) = some img
                  ∧ 0 < (((fun _ : String => envAlways70) "context_street").judge
                      (profileFor "context_street") (k + 1)).total_score)) :=
  ⟨by decide,
   manifest_entry_iff_positive_judged "job" "ts" "h.png" 5 SHOT_TYPES
     (fun _ => envAlways70) 80 3 "context_street" (by decide)⟩

/-- The driver's main loop only appends to the manifest image list. -/
theorem processShots_images_prefix (T M : Nat) (jid ts : String)
    (envs : String → ShotEnv) (total : Nat) :
    ∀ (shots : List Shot) (ds : DriverState),
      ∃ suffix, (processShots T M jid ts envs total ds shots).images
        = ds.images ++ suffix := by
  intro shots
  induction shots with
  | nil =>
      intro ds
      exact ⟨[], by simp [processShots]⟩
  | cons shot rest ih =>
      intro ds
      by_cases hh : shot.id = "hero_facade"
      · simp only [processShots, if_pos hh]
        exact ih ds
      · simp only [processShots, if_neg hh]
        split
        · obtain ⟨suf, hsuf⟩ := ih _
          refine ⟨suf, ?_⟩
          rw [hsuf, emitVerifying_images, update_status_images]
        · next e heq =>
            obtain ⟨suf, hsuf⟩ := ih _
            refine ⟨e :: suf, ?_⟩
            rw [hsuf]
            simp [save_image_to_manifest, emitVerifying_images, update_status_images]

/-- C1 counterexample: with a synthesizer that always produces an image and a
judge that always answers 0 (as the code's own error fallback does), every
`context_street` attempt yields an image, yet the finished run's Manifest has
no `context_street` entry — refuting the frozen claim that any shot with a
produced image yields a stored ShotResult. -/
theorem manifest_entry_missing_despite_image :
    ((envAlways0.synth 1).isSome = true
        ∧ (envOutcomes envAlways0 (profileFor "context_street") 3).all
            (fun o => o.isSome) = true)
      ∧ ¬ ∃ e ∈ (mainDriver "job" "ts" false (some 5) "h.png"
            (get_shots_for_project_type "dual_occupancy" 2)
            (fun _ => envAlways0) 80 3).images,
          e.variationType = "context_street" := by
  rw [shots_dual_occupancy]
  decide

/-- If the manifest image list starts with entry `e`, it still does after the
main loop (which only appends). -/
theorem processShots_images_head (T M : Nat) (jid ts : String)
    (envs : String → ShotEnv) (total : Nat) (shots : List Shot)
    (ds : DriverState) (e : ImageEntry) (hds : ds.images.head? = some e) :
    (processShots T M jid ts envs total ds shots).images.head? = some e := by
  obtain ⟨suf, hsuf⟩ := processShots_images_prefix T M jid ts envs total shots ds
  rw [hsuf]
  cases hI : ds.images with
  | nil => rw [hI] at hds; simp at hds
  | cons a t =>
      rw [hI] at hds
      simpa using hds

/-- Changing the environment of the hero id only does not change the main
loop's behaviour: the loop never consults it. -/
theorem processShots_envs_congr (T M : Nat) (jid ts : String)
    (envs envs' : String → ShotEnv) (total : Nat)
    (h : ∀ sid, sid ≠ "hero_facade" → envs sid = envs' sid) :
    ∀ (shots : List Shot) (ds : DriverState),
      processShots T M jid ts envs total ds shots
        = processShots T M jid ts envs' total ds shots := by
  intro shots
  induction shots with
  | nil => intro ds; rfl
  | cons shot rest ih =>
      intro ds
      by_cases hh : shot.id = "hero_facade"
      · simp only [processShots, if_pos hh]
        exact ih ds
      · simp only [processShots, if_neg hh]
        rw [h shot.id hh]
        simp only [ih]

/-- C8: the hero shot is never judged — the whole run is invariant under
arbitrary changes to the hero-id environment; if hero synthesis yields an
image, the first Manifest entry is the hero entry with the fixed maximal
score 100, attempts 1 and lowConfidence false; if it yields no image, the
run ends in terminal status "error" after only the four initial status
writes, with an empty Manifest — no downstream shot is attempted. -/
theorem hero_never_judged_and_hero_failure_fatal (jid ts hf : String)
    (shots : List Shot) (envs envs' : String → ShotEnv) (T M : Nat) (h : Nat) :
    ((∀ sid, sid ≠ "hero_facade" → envs sid = envs' sid)
        → mainDriver jid ts false (some h) hf shots envs T M
            = mainDriver jid ts false (some h) hf shots envs' T M)
      ∧ ((mainDriver jid ts false (some h) hf shots envs T M).images.head?
            = some (heroEntry jid ("hero_facade_" ++ ts ++ ".png"))
          ∧ (heroEntry jid ("hero_facade_" ++ ts ++ ".png")).consistencyScore = 100
          ∧ (heroEntry jid ("hero_facade_" ++ ts ++ ".png")).attempts = 1
          ∧ (heroEntry jid ("hero_facade_" ++ ts ++ ".png")).lowConfidence = false)
      ∧ ((mainDriver jid ts false none hf shots envs T M).status.status = some "error"
          ∧ (mainDriver jid ts false none hf shots envs T M).images = []
          ∧ (mainDriver jid ts false none hf shots envs T M).trace.length = 4) := by
  refine ⟨?_, ⟨?_, rfl, rfl, rfl⟩, ?_, ?_, ?_⟩
  · intro hagree
    simp only [mainDriver, Bool.false_eq_true, if_false]
    rw [processShots_envs_congr T M jid ts envs envs' shots.length hagree]
  · simp only [mainDriver, Bool.false_eq_true, if_false, update_status_images]
    apply processShots_images_head
    simp only [save_image_to_manifest, update_status_images, List.nil_append,
      List.head?_cons]
  · simp [mainDriver, update_status, Status.merge, mergeField]
  · simp [mainDriver, update_status, Status.merge, mergeField]
  · simp [mainDriver, update_status, Status.merge, mergeField]

/-- C8 witness: replacing the hero-id environment (and nothing else) leaves
the run unchanged. -/
theorem hero_never_judged_witness :
    mainDriver "job" "ts" false (some 5) "h.png" SHOT_TYPES
        (fun _ => envAlways0) 80 3
      = mainDriver "job" "ts" false (some 5) "h.png" SHOT_TYPES
          (fun sid => if sid = "hero_facade" then envAlways90 else envAlways0) 80 3 :=
  (hero_never_judged_and_hero_failure_fatal "job" "ts" "h.png" SHOT_TYPES
      (fun _ => envAlways0)
      (fun sid => if sid = "hero_facade" then envAlways90 else envAlways0) 80 3 5).1
    (fun sid hsid => by simp [hsid])



theorem update_images_length (vt : String) (new : ImageEntry) :
    ∀ l : List ImageEntry, (update_images vt new l).length = l.length := by
  intro l
  induction l with
  | nil => rfl
  | cons img rest ih =>
      by_cases hm : img.variationType = vt
      · simp [update_images, hm]
      · simp [update_images, hm, ih]

theorem update_images_map_id (vt : String) (new : ImageEntry) :
    ∀ l : List ImageEntry,
      (update_images vt new l).map (fun e => e.id) = l.map (fun e => e.id) := by
  intro l
  induction l with
  | nil => rfl
  | cons img rest ih =>
      by_cases hm : img.variationType = vt
      · simp [update_images, hm]
      · simp [update_images, hm, ih]

theorem update_images_no_match (vt : String) (new : ImageEntry) :
    ∀ l : List ImageEntry, (∀ e ∈ l, e.variationType ≠ vt)
      → update_images vt new l = l := by
  intro l
  induction l with
  | nil => intro _; rfl
  | cons img rest ih =>
      intro h
      rw [update_images, if_neg (h img (List.mem_cons_self _ _)),
        ih (fun e he => h e (List.mem_cons_of_mem _ he))]

theorem update_images_first_match (vt : String) (new : ImageEntry) :
    ∀ (l : List ImageEntry) (i : Nat) (hi : i < l.length),
      (l.get ⟨i, hi⟩).variationType = vt
      → (∀ j, j < i → ∀ hj : j < l.length, (l.get ⟨j, hj⟩).variationType ≠ vt)
      → update_images vt new l
          = l.take i ++ ({ new with id := (l.get ⟨i, hi⟩).id } :: l.drop (i + 1)) := by
  intro l
  induction l with
  | nil => intro i hi; simp at hi
  | cons img rest ih =>
      intro i hi hmatch hfirst
      match i with
      | 0 =>
          simp only [List.get] at hmatch
          simp [update_images, hmatch]
      | j + 1 =>
          have hne : img.variationType ≠ vt := by
            have := hfirst 0 (by omega) (by simp)
            simpa using this
          simp only [List.get] at hmatch
          rw [update_images, if_neg hne,
            ih j (by simpa using Nat.lt_of_succ_lt_succ hi) hmatch
              (fun k hki hk => by
                have := hfirst (k + 1) (by omega) (by simpa using Nat.succ_lt_succ hk)
                simpa using this)]
          simp [List.take_succ_cons, List.drop_succ_cons]

/-- C9: regenerating a shot id whose Manifest holds an entry replaces the
first matching entry's content in place while preserving that entry's
original `id`; the list length and the identity (hence order) of all
entries are unchanged. -/
theorem regeneration_replaces_entry_in_place (m : Manifest) (vt : String)
    (new : ImageEntry) (now i : Nat) (hi : i < m.images.length)
    (hmatch : (m.images.get ⟨i, hi⟩).variationType = vt)
    (hfirst : ∀ j, j < i → ∀ hj : j < m.images.length,
      (m.images.get ⟨j, hj⟩).variationType ≠ vt) :
    (update_manifest m vt new now).images
        = m.images.take i
          ++ ({ new with id := (m.images.get ⟨i, hi⟩).id } :: m.images.drop (i + 1))
      ∧ (update_manifest m vt new now).images.length = m.images.length
      ∧ (update_manifest m vt new now).images.map (fun e => e.id)
          = m.images.map (fun e => e.id) := by
  refine ⟨?_, ?_, ?_⟩
  · exact update_images_first_match vt new m.images i hi hmatch hfirst
  · exact update_images_length vt new m.images
  · exact update_images_map_id vt new m.images

/-- C9 witness: replacing the `context_street` entry of a two-entry manifest
(the match is at index 1). -/
theorem regeneration_replaces_entry_in_place_witness :
    ((twoEntryManifest.images.get ⟨1, by decide⟩).variationType = "context_street")
      ∧ ((update_manifest twoEntryManifest "context_street" regenEntry90 7).images
            = twoEntryManifest.images.take 1
              ++ ({ regenEntry90 with
                    id := (twoEntryManifest.images.get ⟨1, by decide⟩).id }
                  :: twoEntryManifest.images.drop 2)
          ∧ (update_manifest twoEntryManifest "context_street" regenEntry90 7).images.length
              = twoEntryManifest.images.length
          ∧ (update_manifest twoEntryManifest "context_street" regenEntry90 7).images.map
              (fun e => e.id)
              = twoEntryManifest.images.map (fun e => e.id)) :=
  ⟨by decide,
   regeneration_replaces_entry_in_place twoEntryManifest "context_street"
     regenEntry90 7 1 (by decide) (by decide)
     (fun j hji hj => by
       have hj0 : j = 0 := by omega
       subst hj0
       exact (by decide :
         (twoEntryManifest.images.get ⟨0, Nat.zero_lt_two⟩).variationType
           ≠ "context_street"))⟩

/-- C10: invoking single-shot regeneration for a variation type with no
matching Manifest entry succeeds silently: the image list is unchanged and
only `updated_at` is rewritten, even though the new image file (the stored
entry's filename) was written to the output directory. -/
theorem regeneration_no_matching_entry (m : Manifest)
    (jid vt ts : String) (env : ShotEnv) (T M now : Nat)
    (hnone : ∀ e ∈ m.images, e.variationType ≠ vt) :
    ∀ m' e', regenerate_single_main m jid vt env T M ts now = some (m', e')
      → m'.images = m.images ∧ m'.updated_at = some now
        ∧ e'.filename = vt ++ "_" ++ ts ++ ".png" := by
  intro m' e' h'
  unfold regenerate_single_main at h'
  cases hshot : get_shot_by_id vt with
  | none => rw [hshot] at h'; simp at h'
  | some shot' =>
      rw [hshot] at h'
      cases hhero : m.images.find? (fun img => img.isHero) with
      | none => rw [hhero] at h'; simp at h'
      | some hx =>
          rw [hhero] at h'
          dsimp only at h'
          cases hb : (runRefinementLoop T (envOutcomes env (profileFor vt) M)).best_image_data with
          | none => rw [hb] at h'; simp at h'
          | some i =>
              rw [hb] at h'
              simp only [Option.some.injEq, Prod.mk.injEq] at h'
              obtain ⟨hm', he'⟩ := h'
              subst hm'
              subst he'
              refine ⟨?_, rfl, rfl⟩
              exact update_images_no_match vt _ m.images hnone

/-- C10 witness: regenerating `context_street` against a manifest holding
only the hero entry. -/
theorem regeneration_no_matching_entry_witness :
    (∀ e ∈ heroOnlyManifest.images, e.variationType ≠ "context_street")
      ∧ (regenerate_single_main heroOnlyManifest "job" "context_street"
            envAlways90 80 3 "ts" 7 = some (regenManifestAfter, regenEntry90))
      ∧ (regenManifestAfter.images = heroOnlyManifest.images
          ∧ regenManifestAfter.updated_at = some 7
          ∧ regenEntry90.filename = "context_street" ++ "_" ++ "ts" ++ ".png") :=
  ⟨by decide, by decide,
   regeneration_no_matching_entry heroOnlyManifest "job" "context_street" "ts"
     envAlways90 80 3 7 (by decide) regenManifestAfter regenEntry90 (by decide)⟩

theorem pTrace_update_status (ds : DriverState) (u : Status) :
    pTrace (update_status ds u) = pTrace ds ++ [(ds.status.merge u).progress.getD 0] := by
  simp [pTrace, update_status]

theorem merge_progress_none (st u : Status) (hu : u.progress = none) :
    (st.merge u).progress = st.progress := by
  simp [Status.merge, hu, mergeField]

theorem merge_progress_some (st u : Status) (q : Nat) (hu : u.progress = some q) :
    (st.merge u).progress = some q := by
  simp [Status.merge, hu, mergeField]

theorem chain_le_snoc (l : List Nat) (a : Nat)
    (hc : List.Chain' (fun x y => x ≤ y) l)
    (ha : ∀ x, l.getLast? = some x → x ≤ a) :
    List.Chain' (fun x y => x ≤ y) (l ++ [a]) := by
  rw [List.chain'_append]
  refine ⟨hc, List.chain'_singleton a, ?_⟩
  intro x hx y hy
  simp only [List.head?_cons, Option.mem_def, Option.some.injEq] at hy
  subst hy
  exact ha x hx

theorem pTrace_getLast (ds : DriverState)
    (hlast : ds.trace.getLast? = some ds.status) :
    (pTrace ds).getLast? = some (ds.status.progress.getD 0) := by
  rw [pTrace, List.getLast?_map, hlast]
  rfl

theorem progressInv_update_none (total : Nat) (ds : DriverState) (u : Status)
    (hu : u.progress = none) (h : ProgressInv total ds) :
    ProgressInv total (update_status ds u) := by
  obtain ⟨hc, hlast, p, hp, hple⟩ := h
  have hmp : (ds.status.merge u).progress = some p := by
    rw [merge_progress_none _ _ hu, hp]
  refine ⟨?_, ?_, p, hmp, hple⟩
  · rw [pTrace_update_status, hmp]
    apply chain_le_snoc _ _ hc
    intro x hx
    rw [pTrace_getLast ds hlast, hp] at hx
    simp only [Option.some.injEq] at hx
    subst hx
    exact Nat.le_refl _
  · simp [update_status]

theorem progressInv_update_some (total : Nat) (ds : DriverState) (u : Status)
    (q : Nat) (hu : u.progress = some q) (h : ProgressInv total ds)
    (hpq : ∀ p, ds.status.progress = some p → p ≤ q)
    (hqle : q ≤ ds.completed * 100 / total) :
    ProgressInv total (update_status ds u) := by
  obtain ⟨hc, hlast, p, hp, hple⟩ := h
  have hmp : (ds.status.merge u).progress = some q := merge_progress_some _ _ q hu
  refine ⟨?_, ?_, q, hmp, hqle⟩
  · rw [pTrace_update_status, hmp]
    apply chain_le_snoc _ _ hc
    intro x hx
    rw [pTrace_getLast ds hlast, hp] at hx
    simp only [Option.some.injEq] at hx
    subst hx
    exact hpq p hp
  · simp [update_status]

theorem progressInv_save (total : Nat) (ds : DriverState) (e : ImageEntry)
    (h : ProgressInv total ds) :
    ProgressInv total (save_image_to_manifest ds e) := by
  obtain ⟨hc, hlast, p, hp, hple⟩ := h
  refine ⟨?_, ?_, p, hp, hple⟩
  · have : pTrace (save_image_to_manifest ds e) = pTrace ds ++ [p] := by
      simp [pTrace, save_image_to_manifest, hp]
    rw [this]
    apply chain_le_snoc _ _ hc
    intro x hx
    rw [pTrace_getLast ds hlast, hp] at hx
    simp only [Option.some.injEq] at hx
    subst hx
    exact Nat.le_refl _
  · simp [save_image_to_manifest]

theorem progressInv_emitVerifying (total : Nat) (name : String) :
    ∀ (n : Nat) (ds : DriverState), ProgressInv total ds
      → ProgressInv total (emitVerifying name ds n) := by
  intro n
  induction n with
  | zero => intro ds h; exact h
  | succ n ih =>
      intro ds h
      exact ih _ (progressInv_update_none total ds _ rfl h)

theorem progressInv_completed_succ (total : Nat) (ds : DriverState)
    (h : ProgressInv total ds) :
    ProgressInv total { ds with completed := ds.completed + 1 } := by
  obtain ⟨hc, hlast, p, hp, hple⟩ := h
  refine ⟨hc, hlast, p, hp, ?_⟩
  show p ≤ (ds.completed + 1) * 100 / total
  exact Nat.le_trans hple (Nat.div_le_div_right (by omega))

theorem countNonHero_nil : countNonHero [] = 0 := rfl

theorem countNonHero_cons_hero (shot : Shot) (rest : List Shot)
    (hh : shot.id = "hero_facade") :
    countNonHero (shot :: rest) = countNonHero rest := by
  simp [countNonHero, List.filter_cons, hh]

theorem countNonHero_cons_ne (shot : Shot) (rest : List Shot)
    (hh : ¬ shot.id = "hero_facade") :
    countNonHero (shot :: rest) = countNonHero rest + 1 := by
  simp [countNonHero, List.filter_cons, hh]

theorem countNonHero_lt (shots : List Shot)
    (hhero : ∃ shot ∈ shots, shot.id = "hero_facade") :
    countNonHero shots < shots.length := by
  obtain ⟨s, hs, hsid⟩ := hhero
  unfold countNonHero
  rw [List.length_filter_lt_length_iff_exists]
  exact ⟨s, hs, by simp [hsid]⟩

/-- The main loop preserves the progress invariant and keeps `completed`
within the plan size, provided the remaining non-hero shots fit in the
budget. -/
theorem processShots_progressInv (T M : Nat) (jid ts : String)
    (envs : String → ShotEnv) (total : Nat) :
    ∀ (shots : List Shot) (ds : DriverState),
      ProgressInv total ds
      → ds.completed + countNonHero shots ≤ total
      → ProgressInv total (processShots T M jid ts envs total ds shots)
        ∧ (processShots T M jid ts envs total ds shots).completed ≤ total := by
  intro shots
  induction shots with
  | nil =>
      intro ds h hcount
      rw [countNonHero_nil] at hcount
      exact ⟨h, by simpa [processShots] using hcount⟩
  | cons shot rest ih =>
      intro ds h hcount
      by_cases hh : shot.id = "hero_facade"
      · simp only [processShots, if_pos hh]
        exact ih ds h (by rwa [countNonHero_cons_hero shot rest hh] at hcount)
      · rw [countNonHero_cons_ne shot rest hh] at hcount
        simp only [processShots, if_neg hh]
        obtain ⟨hc, hlast, p, hp, hple⟩ := h
        have h1 : ProgressInv total (update_status ds
            { status := some "generating",
              progress := some (ds.completed * 100 / total),
              currentImage := some (ds.completed + 1),
              totalImages := some total,
              currentVariation := some shot.id,
              message := some ("Generating " ++ shot.name ++ "..."),
              images := none }) := by
          apply progressInv_update_some total ds _ (ds.completed * 100 / total) rfl
            ⟨hc, hlast, p, hp, hple⟩
          · intro p' hp'
            rw [hp] at hp'
            simp only [Option.some.injEq] at hp'
            subst hp'
            exact hple
          · exact Nat.le_refl _
        have h2 := progressInv_emitVerifying total shot.name
          (judgedCount T (envOutcomes (envs shot.id) (profileFor shot.id) M)) _ h1
        split
        · apply ih _ h2
          rw [emitVerifying_completed, update_status_completed]
          omega
        · next e heq =>
            apply ih _ (progressInv_completed_succ total _ (progressInv_save total _ e h2))
            simp only [save_image_to_manifest, emitVerifying_completed,
              update_status_completed]
            omega

/-- C2 (amended): in the generate-hero flow (no `--from-hero`), for any plan
that contains the hero shot and has at most 20 entries (every plan the code
builds has 18 or 20), the progress values written to the job status never
decrease, through the terminal write included.  The frozen claim over every
flow is refuted by the from-hero counterexample, where progress drops from
10 to 5. -/
theorem progress_monotone_without_from_hero (jid ts hf : String)
    (heroImage : Option Nat) (shots : List Shot) (envs : String → ShotEnv)
    (T M : Nat) (hlen : shots.length ≤ 20)
    (hhero : ∃ shot ∈ shots, shot.id = "hero_facade") :
    List.Chain' (fun a b => a ≤ b)
      (pTrace (mainDriver jid ts false heroImage hf shots envs T M)) := by
  have htotal_pos : 0 < shots.length := by
    obtain ⟨s, hs, -⟩ := hhero
    exact List.length_pos.mpr (List.ne_nil_of_mem hs)
  cases heroImage with
  | none =>
      simp only [mainDriver, Bool.false_eq_true, if_false]
      simp [pTrace, update_status, Status.merge, mergeField, emptyStatus]
  | some h =>
      simp only [mainDriver, Bool.false_eq_true, if_false]
      have hInv0 : ProgressInv shots.length
          { save_image_to_manifest (update_status (update_status (update_status
              { status := emptyStatus, trace := [], images := [], completed := 0 }
              { status := some "parsing", progress := some 2, currentImage := some 0,
                totalImages := some 18, currentVariation := none,
                message := some "Analyzing project description...", images := none })
              { status := none, progress := none, currentImage := none,
                totalImages := some shots.length, currentVariation := none,
                message := some "Project parsed, starting generation...", images := none })
              { status := some "generating_hero", progress := some 5, currentImage := some 1,
                totalImages := some 18, currentVariation := some "hero_facade",
                message := some "Generating primary facade (hero image)...", images := none })
              (heroEntry jid ("hero_facade_" ++ ts ++ ".png"))
            with completed := 1 } := by
        refine ⟨?_, ?_, 5, ?_, ?_⟩
        · simp [pTrace, update_status, save_image_to_manifest, Status.merge,
            mergeField, emptyStatus]
        · simp [update_status, save_image_to_manifest]
        · simp [update_status, save_image_to_manifest, Status.merge, mergeField,
            emptyStatus]
        · show 5 ≤ 1 * 100 / shots.length
          rw [Nat.one_mul, Nat.le_div_iff_mul_le htotal_pos]
          omega
      have hcount0 : (1 : Nat) + countNonHero shots ≤ shots.length := by
        have := countNonHero_lt shots hhero
        omega
      obtain ⟨⟨hc1, hlast1, p1, hp1, hple1⟩, hcle⟩ :=
        processShots_progressInv T M jid ts envs shots.length shots _ hInv0 hcount0
      rw [pTrace_update_status, merge_progress_some _ _ 100 rfl]
      apply chain_le_snoc _ _ hc1
      intro x hx
      rw [pTrace_getLast _ hlast1, hp1] at hx
      simp only [Option.getD_some, Option.some.injEq] at hx
      subst hx
      calc p1 ≤ _ := hple1
        _ ≤ shots.length * 100 / shots.length :=
            Nat.div_le_div_right (Nat.mul_le_mul_right _ hcle)
        _ = 100 := Nat.mul_div_cancel_left _ htotal_pos

theorem nondecreasing_iff :
    ∀ l : List Nat, nondecreasing l = true ↔ List.Chain' (fun a b => a ≤ b) l := by
  intro l
  induction l with
  | nil => simp [nondecreasing]
  | cons a t ih =>
      cases t with
      | nil => simp [nondecreasing]
      | cons b t' =>
          rw [nondecreasing]
          simp only [Bool.and_eq_true, decide_eq_true_eq, List.chain'_cons]
          rw [ih]

/-- C2 counterexample: in the `--from-hero` flow on the standard 18-shot
plan, the progress sequence written to the job status is not nondecreasing —
the hero stage writes 10 and the first per-shot update then writes
`int((1 / 18) * 100) = 5`. -/
theorem progress_decreases_in_from_hero_flow :
    ¬ List.Chain' (fun a b => a ≤ b)
      (pTrace (mainDriver "job" "ts" true none "hero.png"
        (get_shots_for_project_type "dual_occupancy" 2)
        (fun _ => envNoImage) 80 3)) := by
  rw [shots_dual_occupancy, ← nondecreasing_iff]
  decide

/-- C2 witness: a generate-hero run on a plan containing the hero shot has a
nondecreasing progress trace. -/
theorem progress_monotone_without_from_hero_witness :
    ([heroFacadeShot].length ≤ 20 ∧ ∃ shot ∈ [heroFacadeShot], shot.id = "hero_facade")
      ∧ List.Chain' (fun a b => a ≤ b)
          (pTrace (mainDriver "job" "ts" false (some 5) "h.png" [heroFacadeShot]
            (fun _ => envNoImage) 80 3)) := by
  have h1 : [heroFacadeShot].length ≤ 20 := by decide
  have h2 : ∃ shot ∈ [heroFacadeShot], shot.id = "hero_facade" := by decide
  exact ⟨⟨h1, h2⟩, progress_monotone_without_from_hero "job" "ts" "h.png" (some 5)
    [heroFacadeShot] (fun _ => envNoImage) 80 3 h1 h2⟩

end SQM
